import Mathlib

/-!
Verification development for the SERP similarity checker.

The computational core of the program is the function `analyze_serp_similarity`
together with the URL normalizer `get_domain`.  Both are embedded below as
executable Lean definitions:

* Python dictionaries built by comprehensions are modelled as association
  lists built by `dictInsert`, which keeps the key at its first insertion
  point but overwrites the stored value on a duplicate key — exactly the
  semantics of a Python dict comprehension.
* `urlparse(url).netloc` is modelled by `netloc`, following the algorithm of
  `urllib.parse.urlsplit`: an optional scheme (a leading run of
  alphanumeric/`+`/`-`/`.` characters ending in `:`, whose first character is
  a letter) is removed, and the host is the text between a leading `//` and
  the next `/`, `?` or `#`.
* `str.replace('www.', '')` is modelled by `removeWWW`, a single
  left-to-right pass deleting each non-overlapping occurrence of `www.`.
* The `try/except` around `urlparse` in `get_domain` is live: `urlsplit`
  raises `ValueError("Invalid IPv6 URL")` when the authority has a
  `[`/`]` bracket mismatch, and the `except:` branch then returns the raw
  URL unchanged; `urlparseRaises` models that raise condition.
* The division in the similarity percentages raises `ZeroDivisionError` in
  Python when the denominator is `0`; accordingly `analyze` returns an
  `Option Report`, with `none` for the raising executions.
-/

set_option linter.unusedVariables false

namespace Serp

/-- One organic search result; only the `link` field is read by the core. -/
structure SearchResult where
  link : String
deriving DecidableEq, Repr

/-- The input of `analyze`: a Serper response, of which only the `organic`
key is read (`results.get('organic', [])`); a missing key is `none`. -/
structure SerpInput where
  organic : Option (List SearchResult)
deriving DecidableEq, Repr

/-- `results.get('organic', [])`. -/
def getOrganic (i : SerpInput) : List SearchResult :=
  i.organic.getD []

/-- Characters allowed in a URL scheme after the first letter
(`scheme_chars` of `urllib.parse`). -/
def isSchemeChar (c : Char) : Bool :=
  c.isAlphanum || c == '+' || c == '-' || c == '.'

/-- A valid scheme: first character a letter, the rest scheme characters. -/
def validScheme : List Char → Bool
  | [] => false
  | c :: rest => c.isAlpha && rest.all isSchemeChar

/-- Remove a leading `scheme:` if present, as `urllib.parse.urlsplit` does:
split at the first `:` when it is preceded by a nonempty valid scheme. -/
def afterScheme (s : List Char) : List Char :=
  match s.findIdx? (fun c => c == ':') with
  | none => s
  | some i => if 0 < i && validScheme (s.take i) then s.drop (i + 1) else s

/-- A character that does not terminate the netloc component. -/
def notNetlocEnd (c : Char) : Bool :=
  !(c == '/') && !(c == '?') && !(c == '#')

/-- `urlparse(url).netloc`: after removing the scheme, the host is present
only when the remainder starts with `//`, and extends to the next
`/`, `?` or `#`. -/
def netloc (s : List Char) : List Char :=
  match afterScheme s with
  | '/' :: '/' :: r => r.takeWhile notNetlocEnd
  | _ => []

/-- `domain.replace('www.', '')`: one left-to-right pass deleting each
non-overlapping occurrence of the four characters `www.`. -/
def removeWWW : List Char → List Char
  | 'w' :: 'w' :: 'w' :: '.' :: rest => removeWWW rest
  | c :: rest => c :: removeWWW rest
  | [] => []

/-- A `[`/`]` bracket mismatch: one bracket present without the other. -/
def bracketMismatch (s : List Char) : Bool :=
  (s.contains '[' && !s.contains ']') || (s.contains ']' && !s.contains '[')

/-- The condition under which `urlparse(url)` raises `ValueError`:
`urlsplit` checks the extracted authority for a `[`/`]` bracket mismatch
and raises `Invalid IPv6 URL` (a check present in every CPython version).
When the remainder after the scheme does not start with `//` no authority
is extracted and no check runs, matching `netloc s = []` here. -/
def urlparseRaises (s : List Char) : Bool :=
  bracketMismatch (netloc s)

/-- `get_domain` from the source: normally the netloc of the URL with
`www.` removed; when `urlparse` raises — its authority has a `[`/`]`
bracket mismatch — the bare `except:` returns the raw URL unchanged.
(CPython ≥ 3.11 additionally validates the contents of a MATCHED
bracketed host, which is not modelled; every universally quantified
statement about `get_domain` below excludes bracketed authorities by
hypothesis, and every concrete URL used is bracket-free, so all
statements hold on every CPython version.) -/
def get_domain (url : String) : String :=
  if urlparseRaises url.data then url else ⟨removeWWW (netloc url.data)⟩

/-- Insertion into a Python dict: a duplicate key keeps its first position
in the list but receives the new value; a new key goes to the end. -/
def dictInsert {α : Type} (k : String) (v : α) : List (String × α) → List (String × α)
  | [] => [(k, v)]
  | (k', v') :: rest => if k = k' then (k, v) :: rest else (k', v') :: dictInsert k v rest

/-- The dict comprehension `{f(r): i+1 for i, r in enumerate(rs)}`,
with the running 1-based position carried explicitly. -/
def buildIndexAux (f : SearchResult → String) : Nat → List SearchResult → List (String × Nat) → List (String × Nat)
  | _, [], d => d
  | j, r :: rs, d => buildIndexAux f (j + 1) rs (dictInsert (f r) (j + 1) d)

/-- The index of a result list: key (domain or URL) to 1-based position. -/
def buildIndex (f : SearchResult → String) (rs : List SearchResult) : List (String × Nat) :=
  buildIndexAux f 0 rs []

/-- Python `d[k]` / `k in d`, as an optional lookup. -/
def lookup {α : Type} (k : String) : List (String × α) → Option α
  | [] => none
  | (k', v) :: rest => if k = k' then some v else lookup k rest

/-- `d.keys()`. -/
def keys {α : Type} (d : List (String × α)) : List String :=
  d.map Prod.fst

/-- `domains1 = {get_domain(result['link']): i+1 for i, result in enumerate(organic)}`. -/
def domainsOf (rs : List SearchResult) : List (String × Nat) :=
  buildIndex (fun r => get_domain r.link) rs

/-- `urls1 = {result['link']: i+1 for i, result in enumerate(organic)}`. -/
def urlsOf (rs : List SearchResult) : List (String × Nat) :=
  buildIndex (fun r => r.link) rs

/-- `set(d1.keys()) & set(d2.keys())`, as the keys of `d1` that are also
keys of `d2`. -/
def commonKeys {α : Type} (d1 d2 : List (String × α)) : List String :=
  (keys d1).filter (fun k => decide (k ∈ keys d2))

/-- `abs(domains1[domain] - domains2[domain])`. -/
def posDiff (d1 d2 : List (String × Nat)) (k : String) : Nat :=
  ((((lookup k d1).getD 0 : Nat) : Int) - (((lookup k d2).getD 0 : Nat) : Int)).natAbs

/-- `len(common) / max(len(d1), len(d2)) * 100`, as an exact rational;
`none` models the `ZeroDivisionError` raised when the denominator is 0. -/
def pctOf (num den : Nat) : Option ℚ :=
  if den = 0 then none else some ((num : ℚ) / (den : ℚ) * 100)

/-- One entry of `position_changes`: `{'pos1': …, 'pos2': …, 'diff': …}`. -/
structure PosChange where
  pos1 : Nat
  pos2 : Nat
  diff : Int
deriving DecidableEq, Repr

/-- The value stored in `position_changes` for one domain:
`{'pos1': domains1[d], 'pos2': domains2[d], 'diff': domains2[d] - domains1[d]}`. -/
def changeOf (d1 d2 : List (String × Nat)) (k : String) : PosChange :=
  { pos1 := (lookup k d1).getD 0
    pos2 := (lookup k d2).getD 0
    diff := (((lookup k d2).getD 0 : Nat) : Int) - (((lookup k d1).getD 0 : Nat) : Int) }

/-- The dictionary returned by `analyze_serp_similarity`. -/
structure Report where
  common_domains : List String
  common_urls : List String
  domain_similarity : ℚ
  url_similarity : ℚ
  position_differences : List (String × Nat)
  avg_position_diff : ℚ
  position_changes : List (String × PosChange)
  domains1 : List (String × Nat)
  domains2 : List (String × Nat)
  total_results1 : Nat
  total_results2 : Nat
deriving DecidableEq, Repr

/-- `analyze_serp_similarity(results1, results2)`.  Returns `none` exactly
when the Python function raises `ZeroDivisionError` (both organic lists
empty); otherwise `some` of the report dictionary. -/
def analyze (results1 results2 : SerpInput) : Option Report :=
  let organic1 := getOrganic results1
  let organic2 := getOrganic results2
  let d1 := domainsOf organic1
  let d2 := domainsOf organic2
  let u1 := urlsOf organic1
  let u2 := urlsOf organic2
  let cd := commonKeys d1 d2
  let cu := commonKeys u1 u2
  let pd := cd.map (fun k => (k, posDiff d1 d2 k))
  match pctOf cd.length (max d1.length d2.length), pctOf cu.length (max u1.length u2.length) with
  | some ds, some us =>
    some {
      common_domains := cd
      common_urls := cu
      domain_similarity := ds
      url_similarity := us
      position_differences := pd
      avg_position_diff :=
        if pd = [] then 0 else (pd.map (fun p => ((p.2 : Nat) : ℚ))).sum / ((pd.length : Nat) : ℚ)
      position_changes :=
        (cd.filter (fun k => decide (2 < posDiff d1 d2 k))).map (fun k => (k, changeOf d1 d2 k))
      domains1 := d1
      domains2 := d2
      total_results1 := organic1.length
      total_results2 := organic2.length }
  | _, _ => none

/-- The report produced by the non-raising executions of `analyze`, with the
two percentages written as plain rational divisions.  `analyze_eq` below
shows `analyze` returns exactly this report whenever it does not raise. -/
def reportOf (results1 results2 : SerpInput) : Report :=
  let organic1 := getOrganic results1
  let organic2 := getOrganic results2
  let d1 := domainsOf organic1
  let d2 := domainsOf organic2
  let u1 := urlsOf organic1
  let u2 := urlsOf organic2
  let cd := commonKeys d1 d2
  let cu := commonKeys u1 u2
  let pd := cd.map (fun k => (k, posDiff d1 d2 k))
  { common_domains := cd
    common_urls := cu
    domain_similarity := ((cd.length : Nat) : ℚ) / ((max d1.length d2.length : Nat) : ℚ) * 100
    url_similarity := ((cu.length : Nat) : ℚ) / ((max u1.length u2.length : Nat) : ℚ) * 100
    position_differences := pd
    avg_position_diff :=
      if pd = [] then 0 else (pd.map (fun p => ((p.2 : Nat) : ℚ))).sum / ((pd.length : Nat) : ℚ)
    position_changes :=
      (cd.filter (fun k => decide (2 < posDiff d1 d2 k))).map (fun k => (k, changeOf d1 d2 k))
    domains1 := d1
    domains2 := d2
    total_results1 := organic1.length
    total_results2 := organic2.length }

/-- First `some` of the two options. -/
def orElseO {α : Type} (m x : Option α) : Option α :=
  match m with
  | some v => some v
  | none => x

/-- The 1-based position (offset by `j`) of the last result in `rs` whose
key under `f` is `k`, or `none` when the key does not occur. -/
def occAux (f : SearchResult → String) (k : String) : Nat → List SearchResult → Option Nat
  | _, [] => none
  | j, r :: rs => orElseO (occAux f k (j + 1) rs) (if k = f r then some (j + 1) else none)

/-- The empty result set (an explicit `organic` key holding `[]`). -/
def emptyIn : SerpInput := ⟨some []⟩

/-- Worked scenario, first query. -/
def scenarioA : SerpInput := ⟨some [⟨"https://a.com/1"⟩, ⟨"https://b.com/1"⟩]⟩

/-- Worked scenario, second query. -/
def scenarioB : SerpInput := ⟨some [⟨"https://b.com/2"⟩, ⟨"https://a.com/1"⟩]⟩

/-- A one-result input on `a.com`. -/
def singleA : SerpInput := ⟨some [⟨"https://a.com/1"⟩]⟩

/-- A four-result input whose last result is on `a.com`. -/
def fourB : SerpInput :=
  ⟨some [⟨"https://b.com/1"⟩, ⟨"https://c.com/1"⟩, ⟨"https://d.com/1"⟩, ⟨"https://a.com/9"⟩]⟩

/-- An input with a duplicated domain (`a.com` at positions 1 and 2). -/
def dupA : SerpInput := ⟨some [⟨"https://a.com/1"⟩, ⟨"https://a.com/2"⟩]⟩

/-- A one-result input on `a.com` with a distinct URL. -/
def singleA9 : SerpInput := ⟨some [⟨"https://a.com/9"⟩]⟩

/-! ### Association-list lemmas -/

theorem lookup_dictInsert {α : Type} (k₀ k : String) (v : α) (d : List (String × α)) :
    lookup k₀ (dictInsert k v d) = if k₀ = k then some v else lookup k₀ d := by
  induction d with
  | nil => simp [dictInsert, lookup]
  | cons p rest ih =>
    obtain ⟨k', v'⟩ := p
    by_cases hkk : k = k'
    · subst hkk
      by_cases h0 : k₀ = k <;> simp [dictInsert, lookup, h0]
    · by_cases h0 : k₀ = k'
      · subst h0
        have hne : ¬k₀ = k := fun hh => hkk hh.symm
        simp [dictInsert, lookup, hkk, hne]
      · simp [dictInsert, lookup, hkk, h0, ih]

theorem dictInsert_ne_nil {α : Type} (k : String) (v : α) (d : List (String × α)) :
    dictInsert k v d ≠ [] := by
  cases d with
  | nil => simp [dictInsert]
  | cons p rest => obtain ⟨k', v'⟩ := p; by_cases h : k = k' <;> simp [dictInsert, h]

theorem buildIndexAux_ne_nil (f : SearchResult → String) :
    ∀ (rs : List SearchResult) (j : Nat) (d : List (String × Nat)),
      d ≠ [] → buildIndexAux f j rs d ≠ [] := by
  intro rs
  induction rs with
  | nil => intro j d hd; simpa [buildIndexAux] using hd
  | cons r rest ih =>
    intro j d hd
    simpa [buildIndexAux] using ih (j + 1) _ (dictInsert_ne_nil _ _ _)

theorem buildIndex_eq_nil_iff (f : SearchResult → String) (rs : List SearchResult) :
    buildIndex f rs = [] ↔ rs = [] := by
  cases rs with
  | nil => simp [buildIndex, buildIndexAux]
  | cons r rest =>
    simp only [buildIndex, buildIndexAux]
    constructor
    · intro h
      exact absurd h (buildIndexAux_ne_nil f rest 1 _ (dictInsert_ne_nil _ _ _))
    · intro h; cases h

theorem mem_keys_iff_lookup {α : Type} (k : String) (d : List (String × α)) :
    k ∈ keys d ↔ ∃ v, lookup k d = some v := by
  induction d with
  | nil => simp [keys, lookup]
  | cons p rest ih =>
    obtain ⟨k', v'⟩ := p
    by_cases h : k = k'
    · subst h; simp [keys, lookup]
    · rw [keys, List.map_cons]
      simp only [List.mem_cons, lookup, if_neg h]
      rw [← ih]
      simp [keys, h]

theorem lookup_getD_of_mem {α : Type} (k : String) (d : List (String × α)) (x : α)
    (h : k ∈ keys d) : lookup k d = some ((lookup k d).getD x) := by
  obtain ⟨v, hv⟩ := (mem_keys_iff_lookup k d).mp h
  simp [hv]

theorem mem_commonKeys {α : Type} (k : String) (d1 d2 : List (String × α)) :
    k ∈ commonKeys d1 d2 ↔ k ∈ keys d1 ∧ k ∈ keys d2 := by
  simp [commonKeys, List.mem_filter]

theorem commonKeys_self {α : Type} (d : List (String × α)) :
    commonKeys d d = keys d := by
  rw [commonKeys, List.filter_eq_self]
  intro a ha
  simpa using ha

theorem lookup_map_self {α : Type} (g : String → α) (l : List String) (k : String) :
    lookup k (l.map (fun d => (d, g d))) = if k ∈ l then some (g k) else none := by
  induction l with
  | nil => simp [lookup]
  | cons hd tl ih =>
    by_cases h : k = hd
    · subst h; simp [lookup]
    · simp [lookup, h, ih, Ne.symm h]

/-! ### Characterizing `analyze` -/

theorem max_buildIndex_len_ne (f : SearchResult → String) (a b : SerpInput)
    (h : ¬(getOrganic a = [] ∧ getOrganic b = [])) :
    max (buildIndex f (getOrganic a)).length (buildIndex f (getOrganic b)).length ≠ 0 := by
  intro hz
  rw [Nat.max_eq_zero_iff, List.length_eq_zero, List.length_eq_zero,
    buildIndex_eq_nil_iff, buildIndex_eq_nil_iff] at hz
  exact h hz

/-- `analyze` raises (`none`) exactly when both organic lists are empty, and
otherwise returns the report `reportOf`. -/
theorem analyze_eq (a b : SerpInput) :
    analyze a b =
      if getOrganic a = [] ∧ getOrganic b = [] then none else some (reportOf a b) := by
  by_cases h : getOrganic a = [] ∧ getOrganic b = []
  · obtain ⟨h1, h2⟩ := h
    simp [analyze, h1, h2, domainsOf, urlsOf, buildIndex, buildIndexAux, pctOf]
  · have hmax1 := max_buildIndex_len_ne (fun r => get_domain r.link) a b h
    have hmax2 := max_buildIndex_len_ne (fun r => r.link) a b h
    rw [if_neg h]
    simp only [analyze, reportOf, pctOf, domainsOf, urlsOf] at hmax1 hmax2 ⊢
    rw [if_neg hmax1, if_neg hmax2]

/-! ### Last-occurrence characterization of the indices -/

theorem orElseO_assoc {α : Type} (a b c : Option α) :
    orElseO (orElseO a b) c = orElseO a (orElseO b c) := by
  cases a <;> simp [orElseO]

theorem lookup_buildIndexAux (f : SearchResult → String) (k : String) :
    ∀ (rs : List SearchResult) (j : Nat) (d : List (String × Nat)),
      lookup k (buildIndexAux f j rs d) = orElseO (occAux f k j rs) (lookup k d) := by
  intro rs
  induction rs with
  | nil => intro j d; simp [buildIndexAux, occAux, orElseO]
  | cons r rest ih =>
    intro j d
    rw [buildIndexAux, ih, occAux, orElseO_assoc]
    cases h : occAux f k (j + 1) rest with
    | some v => simp [orElseO]
    | none =>
      simp only [orElseO]
      rw [lookup_dictInsert]
      by_cases hk : k = f r <;> simp [hk, orElseO]

theorem occAux_eq_none (f : SearchResult → String) (k : String) :
    ∀ (rs : List SearchResult), (∀ r ∈ rs, f r ≠ k) → ∀ j, occAux f k j rs = none := by
  intro rs
  induction rs with
  | nil => intro _ j; rfl
  | cons r rest ih =>
    intro h j
    rw [occAux, ih (fun r' hr' => h r' (List.mem_cons_of_mem _ hr')),
      if_neg (fun e => h r (List.mem_cons_self _ _) e.symm)]
    rfl

theorem occAux_append (f : SearchResult → String) (k : String) :
    ∀ (xs ys : List SearchResult) (j : Nat),
      occAux f k j (xs ++ ys) = orElseO (occAux f k (j + xs.length) ys) (occAux f k j xs) := by
  intro xs
  induction xs with
  | nil => intro ys j; cases h : occAux f k j ys <;> simp [occAux, orElseO, h]
  | cons x xs ih =>
    intro ys j
    rw [List.cons_append, occAux, ih, orElseO_assoc, occAux]
    have harith : j + 1 + xs.length = j + (x :: xs).length := by simp; omega
    rw [harith]

/-- C1 (amended): in the index of a result list, a key that occurs at
position `|l₁| + 1` and nowhere later is mapped to `|l₁| + 1` — the index
retains the LAST-seen occurrence of a duplicated key (a Python dict
comprehension overwrites the stored value on a duplicate key), so earlier
occurrences, not later ones, are the shadowed entries. -/
theorem claim_C1_last_seen_wins (f : SearchResult → String)
    (l₁ l₂ : List SearchResult) (r : SearchResult) (h : ∀ r' ∈ l₂, f r' ≠ f r) :
    lookup (f r) (buildIndex f (l₁ ++ r :: l₂)) = some (l₁.length + 1) := by
  rw [buildIndex, lookup_buildIndexAux, occAux_append, occAux,
    occAux_eq_none f (f r) l₂ h (0 + l₁.length + 1), if_pos rfl]
  simp [orElseO, lookup]

/-- Witness for C1: in `[b.com, a.com, c.com]` the key `a.com` (last
occurrence at position 2) maps to 2. -/
theorem claim_C1_witness :
    lookup (get_domain "https://a.com/1")
      (buildIndex (fun r => get_domain r.link)
        ([⟨"https://b.com/1"⟩] ++ ⟨"https://a.com/1"⟩ :: [⟨"https://c.com/1"⟩])) = some 2 :=
  claim_C1_last_seen_wins (fun r => get_domain r.link)
    [⟨"https://b.com/1"⟩] [⟨"https://c.com/1"⟩] ⟨"https://a.com/1"⟩ (by decide)

/-- Counterexample to C1 as stated: with `a.com` at positions 1 and 2 of
the first input, the retained position is 2 (the last occurrence), not the
claimed earliest position 1, and the position difference against an input
holding `a.com` at position 1 is computed from the later occurrence
(`|2 - 1| = 1`, where first-seen-wins would give `0`). -/
theorem claim_C1_counterexample :
    (analyze dupA singleA9).map Report.domains1 = some [("a.com", 2)] ∧
    (analyze dupA singleA9).map Report.position_differences = some [("a.com", 1)] ∧
    (2 : Nat) ≠ 1 := by
  refine ⟨by decide, by decide, by decide⟩

/-! ### C2: behavior on two empty inputs -/

/-- C2 (code bug): on two inputs with no domains and no URLs the source
divides by `max(0, 0)` and raises `ZeroDivisionError` (modelled by
`none`), instead of returning the zero similarity ratios that the claim
and the spec's error-handling section mandate. -/
theorem claim_C2_raises_on_empty : analyze emptyIn emptyIn = none := by decide

/-! ### C3: similarity percentages stay within [0, 100] -/

theorem commonKeys_length_le {α : Type} (d1 d2 : List (String × α)) :
    (commonKeys d1 d2).length ≤ max d1.length d2.length := by
  have h1 : (commonKeys d1 d2).length ≤ (keys d1).length := List.length_filter_le _ _
  have h2 : (keys d1).length = d1.length := List.length_map _ _
  exact le_trans (h1.trans_eq h2) (le_max_left _ _)

theorem pct_bounds_of (c m : Nat) (hcm : c ≤ m) (hm : m ≠ 0) :
    0 ≤ ((c : Nat) : ℚ) / ((m : Nat) : ℚ) * 100 ∧ ((c : Nat) : ℚ) / ((m : Nat) : ℚ) * 100 ≤ 100 := by
  have hm0 : (0 : ℚ) < ((m : Nat) : ℚ) := by exact_mod_cast Nat.pos_of_ne_zero hm
  constructor
  · positivity
  · have h1 : ((c : Nat) : ℚ) / ((m : Nat) : ℚ) ≤ 1 := (div_le_one hm0).mpr (by exact_mod_cast hcm)
    nlinarith

/-- C3: every report `analyze` returns has both similarity percentages in
the closed interval `[0, 100]`. -/
theorem claim_C3_similarity_bounds (a b : SerpInput) (r : Report) (h : analyze a b = some r) :
    0 ≤ r.domain_similarity ∧ r.domain_similarity ≤ 100 ∧
    0 ≤ r.url_similarity ∧ r.url_similarity ≤ 100 := by
  rw [analyze_eq] at h
  split at h
  · cases h
  next hcond =>
    obtain rfl : reportOf a b = r := Option.some.inj h
    have hd := max_buildIndex_len_ne (fun r => get_domain r.link) a b hcond
    have hu := max_buildIndex_len_ne (fun r => r.link) a b hcond
    simp only [reportOf, domainsOf, urlsOf] at hd hu ⊢
    obtain ⟨hd1, hd2⟩ := pct_bounds_of _ _ (commonKeys_length_le _ _) hd
    obtain ⟨hu1, hu2⟩ := pct_bounds_of _ _ (commonKeys_length_le _ _) hu
    exact ⟨hd1, hd2, hu1, hu2⟩

/-- Witness for C3 at a concrete input. -/
theorem claim_C3_witness :
    0 ≤ (reportOf singleA singleA).domain_similarity ∧
    (reportOf singleA singleA).domain_similarity ≤ 100 ∧
    0 ≤ (reportOf singleA singleA).url_similarity ∧
    (reportOf singleA singleA).url_similarity ≤ 100 :=
  claim_C3_similarity_bounds singleA singleA (reportOf singleA singleA)
    (by rw [analyze_eq, if_neg (by decide)])

/-! ### C4: symmetry under swapping the two inputs -/

theorem posDiff_comm (d1 d2 : List (String × Nat)) (k : String) :
    posDiff d1 d2 k = posDiff d2 d1 k := by
  rw [posDiff, posDiff, ← Int.natAbs_neg, neg_sub]

/-- C4: swapping the arguments of `analyze` keeps the membership of
`common_domains` and `common_urls` unchanged; the same domains appear in
`position_changes` on both sides, and the recorded `diff` flips sign. -/
theorem claim_C4_swap (a b : SerpInput) (r r' : Report)
    (h : analyze a b = some r) (h' : analyze b a = some r') :
    (∀ d, d ∈ r.common_domains ↔ d ∈ r'.common_domains) ∧
    (∀ u, u ∈ r.common_urls ↔ u ∈ r'.common_urls) ∧
    (∀ d, (∃ c, lookup d r.position_changes = some c) ↔
      (∃ c', lookup d r'.position_changes = some c')) ∧
    (∀ d c c', lookup d r.position_changes = some c →
      lookup d r'.position_changes = some c' → c'.diff = -c.diff) := by
  rw [analyze_eq] at h h'
  split at h
  · cases h
  next hcond =>
  split at h'
  · cases h'
  next hcond' =>
  obtain rfl : reportOf a b = r := Option.some.inj h
  obtain rfl : reportOf b a = r' := Option.some.inj h'
  refine ⟨?_, ?_, ?_, ?_⟩
  · intro d
    simp only [reportOf]
    rw [mem_commonKeys, mem_commonKeys]
    tauto
  · intro u
    simp only [reportOf]
    rw [mem_commonKeys, mem_commonKeys]
    tauto
  · intro d
    simp only [reportOf]
    rw [lookup_map_self, lookup_map_self]
    have hPP : d ∈ (commonKeys (domainsOf (getOrganic a)) (domainsOf (getOrganic b))).filter
          (fun k => decide (2 < posDiff (domainsOf (getOrganic a)) (domainsOf (getOrganic b)) k)) ↔
        d ∈ (commonKeys (domainsOf (getOrganic b)) (domainsOf (getOrganic a))).filter
          (fun k => decide (2 < posDiff (domainsOf (getOrganic b)) (domainsOf (getOrganic a)) k)) := by
      simp only [List.mem_filter, mem_commonKeys, decide_eq_true_eq]
      rw [posDiff_comm]
      tauto
    by_cases hmem : d ∈ (commonKeys (domainsOf (getOrganic a)) (domainsOf (getOrganic b))).filter
        (fun k => decide (2 < posDiff (domainsOf (getOrganic a)) (domainsOf (getOrganic b)) k))
    · rw [if_pos hmem, if_pos (hPP.mp hmem)]
      simp
    · rw [if_neg hmem, if_neg (fun hp => hmem (hPP.mpr hp))]
  · intro d c c' hc hc'
    simp only [reportOf] at hc hc'
    rw [lookup_map_self] at hc hc'
    split at hc
    · obtain rfl : changeOf _ _ d = c := Option.some.inj hc
      split at hc'
      · obtain rfl : changeOf _ _ d = c' := Option.some.inj hc'
        simp only [changeOf]
        ring
      · cases hc'
    · cases hc

/-- Witness for C4 at concrete inputs with a recorded position change. -/
theorem claim_C4_witness :
    ("a.com" ∈ (reportOf singleA fourB).common_domains ↔
      "a.com" ∈ (reportOf fourB singleA).common_domains) ∧
    PosChange.diff { pos1 := 4, pos2 := 1, diff := -3 } =
      -PosChange.diff { pos1 := 1, pos2 := 4, diff := 3 } := by
  have H := claim_C4_swap singleA fourB (reportOf singleA fourB) (reportOf fourB singleA)
    (by rw [analyze_eq, if_neg (by decide)]) (by rw [analyze_eq, if_neg (by decide)])
  exact ⟨H.1 "a.com",
    H.2.2.2 "a.com" { pos1 := 1, pos2 := 4, diff := 3 } { pos1 := 4, pos2 := 1, diff := -3 }
      (by decide) (by decide)⟩

/-! ### C5: comparing a list with itself -/

/-- C5 (amended): for identical NONEMPTY ordered result lists, `analyze`
returns both similarity percentages equal to 100, every position
difference equal to 0 and an empty `position_changes`.  (On the identical
EMPTY lists the source raises instead of returning, see the
counterexample.) -/
theorem claim_C5_identical (s : SerpInput) (hne : getOrganic s ≠ []) :
    ∃ r, analyze s s = some r ∧ r.domain_similarity = 100 ∧ r.url_similarity = 100 ∧
      (∀ p ∈ r.position_differences, p.2 = 0) ∧ r.position_changes = [] := by
  have hd : domainsOf (getOrganic s) ≠ [] := by
    rw [domainsOf, Ne, buildIndex_eq_nil_iff]; exact hne
  have hu : urlsOf (getOrganic s) ≠ [] := by
    rw [urlsOf, Ne, buildIndex_eq_nil_iff]; exact hne
  have hdq : (((domainsOf (getOrganic s)).length : Nat) : ℚ) ≠ 0 := by
    rw [Nat.cast_ne_zero, Ne, List.length_eq_zero]; exact hd
  have huq : (((urlsOf (getOrganic s)).length : Nat) : ℚ) ≠ 0 := by
    rw [Nat.cast_ne_zero, Ne, List.length_eq_zero]; exact hu
  refine ⟨reportOf s s, ?_, ?_, ?_, ?_, ?_⟩
  · rw [analyze_eq, if_neg (fun hc => hne hc.1)]
  · simp only [reportOf, commonKeys_self, keys, List.length_map, max_self]
    rw [div_self hdq, one_mul]
  · simp only [reportOf, commonKeys_self, keys, List.length_map, max_self]
    rw [div_self huq, one_mul]
  · intro p hp
    simp only [reportOf] at hp
    rw [List.mem_map] at hp
    obtain ⟨k, hk, rfl⟩ := hp
    simp [posDiff]
  · simp only [reportOf]
    rw [List.filter_eq_nil_iff.mpr (fun k hk => by simp [posDiff]), List.map_nil]

/-- Witness for C5 at a concrete nonempty input. -/
theorem claim_C5_witness :
    ∃ r, analyze singleA singleA = some r ∧ r.domain_similarity = 100 ∧
      r.url_similarity = 100 ∧ (∀ p ∈ r.position_differences, p.2 = 0) ∧
      r.position_changes = [] :=
  claim_C5_identical singleA (by decide)

/-- Counterexample to C5 as stated: for the identical EMPTY ordered lists
the source raises `ZeroDivisionError` (modelled by `none`) rather than
returning a domain similarity of 100. -/
theorem claim_C5_counterexample :
    (analyze emptyIn emptyIn).map Report.domain_similarity ≠ some 100 := by decide

/-! ### C6: contents of `position_changes` -/

/-- C6: `position_changes` holds exactly the common domains whose absolute
position difference strictly exceeds the fixed threshold 2, recording the
two positions and `diff = pos2 - pos1` (positive when the domain sits at a
higher-numbered, i.e. worse, position in the second set). -/
theorem claim_C6_position_changes (a b : SerpInput) (r : Report) (h : analyze a b = some r)
    (d : String) (c : PosChange) :
    lookup d r.position_changes = some c ↔
      (d ∈ r.common_domains ∧ 2 < posDiff r.domains1 r.domains2 d ∧
       lookup d r.domains1 = some c.pos1 ∧ lookup d r.domains2 = some c.pos2 ∧
       c.diff = ((c.pos2 : Nat) : Int) - ((c.pos1 : Nat) : Int)) := by
  rw [analyze_eq] at h
  split at h
  · cases h
  next hcond =>
  obtain rfl : reportOf a b = r := Option.some.inj h
  simp only [reportOf]
  rw [lookup_map_self]
  constructor
  · intro hc
    split at hc
    next hmem =>
      obtain rfl : changeOf _ _ d = c := Option.some.inj hc
      rw [List.mem_filter] at hmem
      obtain ⟨hcd, hq⟩ := hmem
      rw [decide_eq_true_eq] at hq
      have hk1 : d ∈ keys (domainsOf (getOrganic a)) := ((mem_commonKeys _ _ _).mp hcd).1
      have hk2 : d ∈ keys (domainsOf (getOrganic b)) := ((mem_commonKeys _ _ _).mp hcd).2
      exact ⟨hcd, hq, lookup_getD_of_mem _ _ 0 hk1, lookup_getD_of_mem _ _ 0 hk2, rfl⟩
    next => cases hc
  · rintro ⟨hcd, hq, hl1, hl2, hdiff⟩
    rw [if_pos (List.mem_filter.mpr ⟨hcd, decide_eq_true hq⟩)]
    have e1 : (lookup d (domainsOf (getOrganic a))).getD 0 = c.pos1 := by rw [hl1]; rfl
    have e2 : (lookup d (domainsOf (getOrganic b))).getD 0 = c.pos2 := by rw [hl2]; rfl
    cases c with
    | mk p1 p2 df =>
      simp only [changeOf, e1, e2] at hdiff ⊢
      simp [hdiff]

/-- Witness for C6 at a concrete input holding one position change. -/
theorem claim_C6_witness :
    lookup "a.com" (reportOf singleA fourB).position_changes =
        some { pos1 := 1, pos2 := 4, diff := 3 } ↔
      ("a.com" ∈ (reportOf singleA fourB).common_domains ∧
       2 < posDiff (reportOf singleA fourB).domains1 (reportOf singleA fourB).domains2 "a.com" ∧
       lookup "a.com" (reportOf singleA fourB).domains1 = some 1 ∧
       lookup "a.com" (reportOf singleA fourB).domains2 = some 4 ∧
       (3 : Int) = ((4 : Nat) : Int) - ((1 : Nat) : Int)) :=
  claim_C6_position_changes singleA fourB (reportOf singleA fourB)
    (by rw [analyze_eq, if_neg (by decide)]) "a.com" { pos1 := 1, pos2 := 4, diff := 3 }

/-! ### C7: the average position difference -/

/-- C7: when there are no common domains the average position difference
is the explicit zero value (no error from an empty mean); otherwise it is
the arithmetic mean of the `position_differences` values. -/
theorem claim_C7_average (a b : SerpInput) (r : Report) (h : analyze a b = some r) :
    (r.common_domains = [] → r.avg_position_diff = 0) ∧
    (r.common_domains ≠ [] →
      r.avg_position_diff =
        (r.position_differences.map (fun p => ((p.2 : Nat) : ℚ))).sum /
          ((r.position_differences.length : Nat) : ℚ)) := by
  rw [analyze_eq] at h
  split at h
  · cases h
  next hcond =>
  obtain rfl : reportOf a b = r := Option.some.inj h
  simp only [reportOf]
  constructor
  · intro hcd
    simp [hcd]
  · intro hne
    rw [if_neg (fun hmap => hne (List.map_eq_nil_iff.mp hmap))]

/-- Witness for C7 at a concrete input with one common domain. -/
theorem claim_C7_witness :
    (reportOf singleA fourB).avg_position_diff =
      ((reportOf singleA fourB).position_differences.map (fun p => ((p.2 : Nat) : ℚ))).sum /
        (((reportOf singleA fourB).position_differences.length : Nat) : ℚ) :=
  (claim_C7_average singleA fourB (reportOf singleA fourB)
    (by rw [analyze_eq, if_neg (by decide)])).2 (by decide)

/-! ### C8: the domain normalizer -/

/-- C9: on `A = [a.com/1, b.com/1]` and `B = [b.com/2, a.com/1]` the
analysis finds both domains common with positions `{a.com: 1, b.com: 2}`
and `{b.com: 1, a.com: 2}`, position differences of 1 for each, exactly
one common URL, and no recorded position changes. -/
theorem claim_C9_scenario :
    (analyze scenarioA scenarioB).map Report.common_domains = some ["a.com", "b.com"] ∧
    (analyze scenarioA scenarioB).map Report.domains1 = some [("a.com", 1), ("b.com", 2)] ∧
    (analyze scenarioA scenarioB).map Report.domains2 = some [("b.com", 1), ("a.com", 2)] ∧
    (analyze scenarioA scenarioB).map Report.position_differences =
      some [("a.com", 1), ("b.com", 1)] ∧
    (analyze scenarioA scenarioB).map Report.common_urls = some ["https://a.com/1"] ∧
    (analyze scenarioA scenarioB).map Report.position_changes = some [] :=
  ⟨by decide, by decide, by decide, by decide, by decide, by decide⟩

/-! ### C10: a missing `organic` key -/

/-- C10: an input without an `organic` key is processed exactly like an
input with an explicitly empty result list, and the corresponding
`total_results` field of any returned report is 0. -/
theorem claim_C10_missing_organic (b : SerpInput) :
    analyze ⟨none⟩ b = analyze ⟨some []⟩ b ∧
    analyze b ⟨none⟩ = analyze b ⟨some []⟩ ∧
    (∀ r, analyze ⟨none⟩ b = some r → r.total_results1 = 0) ∧
    (∀ r, analyze b ⟨none⟩ = some r → r.total_results2 = 0) := by
  refine ⟨rfl, rfl, ?_, ?_⟩
  · intro r h
    rw [analyze_eq] at h
    split at h
    · cases h
    next hcond =>
      obtain rfl : reportOf ⟨none⟩ b = r := Option.some.inj h
      rfl
  · intro r h
    rw [analyze_eq] at h
    split at h
    · cases h
    next hcond =>
      obtain rfl : reportOf b ⟨none⟩ = r := Option.some.inj h
      rfl

/-- Witness for C10 at a concrete nonempty second input. -/
theorem claim_C10_witness :
    analyze ⟨none⟩ singleA9 = analyze ⟨some []⟩ singleA9 ∧
    (reportOf ⟨none⟩ singleA9).total_results1 = 0 := by
  have H := claim_C10_missing_organic singleA9
  exact ⟨H.1, H.2.2.1 (reportOf ⟨none⟩ singleA9) (by rw [analyze_eq, if_neg (by decide)])⟩

end Serp
